import Mathlib

/-!
# Verification of the git-quick-merge merge-orchestration core

Shallow embedding of the repository's merge-orchestration engine:
the worktree name allocator (`createWorktreeConfig`), the worktree
lifecycle primitives, the per-target merge flow
(`executeSingleMergeFlow` / `executeWorkTreeFlow`), the batch
coordinator (`executeMultipleMergeCore`), the unpushed-commit guard
(`checkUnpushedCommits`, `pushCurrentBranch`) and the stale-worktree
scanner/cleaner (`checkStaleWorktrees`, `cleanupStaleWorktrees`).

External effects (git commands, the filesystem, the clock) are modelled
by explicit environment records whose fields hold the outcome each
underlying invocation would produce; the filesystem is a list of
existing directory paths; every external invocation performed by a flow
is recorded in an explicit trace.
-/

namespace GitQuickMerge

/-! ## Models of the JavaScript string/path primitives used by the code -/

/-- `p.leadsWith l`: model of JS `String.prototype.startsWith` on char lists
(`l` starts with pattern `p`). -/
def leadsWith : List Char → List Char → Bool
  | [], _ => true
  | _ :: _, [] => false
  | a :: p, b :: l => a == b && leadsWith p l

/-- Model of JS `String.prototype.includes` on char lists: `hasSub p l` is
true when the pattern `p` occurs contiguously inside `l`. -/
def hasSub (p : List Char) : List Char → Bool
  | [] => leadsWith p []
  | b :: l => leadsWith p (b :: l) || hasSub p l

/-- JS `s.includes(pat)`. -/
def jsIncludes (s pat : String) : Bool := hasSub pat.data s.data

/-- JS `s.startsWith(pat)`. -/
def jsStartsWith (s pat : String) : Bool := leadsWith pat.data s.data

/-- `path.join(a, b)` for already-normalized segments. -/
def pathJoin (a b : String) : String := a ++ "/" ++ b

/-- `targetBranch.replace(/[^a-zA-Z0-9]/g, '-')`. -/
def sanitizeBranchName (s : String) : String :=
  ⟨s.data.map (fun c => if c.isAlphanum then c else '-')⟩

/-- JS `s.slice(-6)`: the last six characters (the whole string when it is
shorter than six characters). -/
def jsSliceLast6 (s : String) : String :=
  ⟨s.data.drop (s.data.length - 6)⟩

/-- JS `Number.prototype.toString` on a (safe-integer) millisecond
timestamp: decimal digits. -/
def jsNumToString (n : Nat) : String := Nat.repr n

/-- JS `String.prototype.trim` on char lists: strip whitespace from both
ends. -/
def trimChars (l : List Char) : List Char :=
  ((l.dropWhile Char.isWhitespace).reverse.dropWhile Char.isWhitespace).reverse

/-- JS `String.prototype.split('\n')` on char lists. -/
def splitOnNl : List Char → List (List Char)
  | [] => [[]]
  | c :: cs =>
    match splitOnNl cs with
    | [] => [[c]]
    | h :: t => if c = '\n' then [] :: h :: t else (c :: h) :: t

/-- `result.trim().split('\n').filter(line => line.trim())` — the line
parsing applied to every `git log --oneline` output in `utils` (a line is
kept when its own trim is non-empty, i.e. truthy). -/
def parseLogLines (out : String) : List String :=
  ((splitOnNl (trimChars out.data)).map (fun l => String.mk l)).filter
    (fun line => !(trimChars line.data).isEmpty)

/-! ## Data model -/

/-- `WorktreeConfig` from `singleMerge.ts`. -/
structure WorktreeConfig where
  repoPath : String
  worktreePath : String
  targetBranch : String
  sourceBranch : String
deriving DecidableEq, Repr

/-- `MultipleMergeResult` from `multiMerge.ts`. -/
structure MultipleMergeResult where
  targetBranch : String
  success : Bool
  error : Option String
  hasNewCommits : Option Bool
deriving DecidableEq, Repr

/-- The record returned by `checkUnpushedCommits` in `utils`. -/
structure UnpushedReport where
  hasUnpushed : Bool
  commitCount : Nat
  commits : List String
deriving DecidableEq, Repr

/-- One external invocation performed by a flow.  Stale-cleanup steps
carry the worktree path being acted on (the underlying `git worktree
remove` receives its basename; the filesystem removal receives the full
path). -/
inductive Step where
  | create
  | switchBr
  | pull
  | revParse
  | mergeBr
  | push
  | cleanupCall
  | cleanupGitRemove
  | cleanupRm
  | staleGitRemove (p : String)
  | staleRm (p : String)
deriving DecidableEq, Repr

/-- Environment of one merge flow: the outcome every underlying git
invocation would have, the two `git rev-parse HEAD` answers, the
`Date.now()` value observed by the allocator, and the underlying error
texts wrapped by the stage error messages. -/
structure FlowEnv where
  now : Nat
  createOk : Bool
  switchOk : Bool
  pullOk : Bool
  mergeOk : Bool
  pushOk : Bool
  /-- `git worktree remove` (and the subsequent `fs.rmSync`) inside
  `cleanupWorktree` succeeds; when false the thrown error is swallowed and
  the directory survives. -/
  cleanupRemoveOk : Bool
  beforeCommit : Option String
  afterCommit : Option String
  createErr : String
  switchErr : String
  pullErr : String
  mergeErr : String
  pushErr : String

/-- Environment of the stale cleaner: whether `fs.rmSync` on a given path
succeeds (the per-entry `git worktree remove` failure is swallowed by the
code and needs no outcome). -/
structure StaleEnv where
  rmOk : String → Bool

/-- Environment of `checkUnpushedCommits`: outcome of the remote-ref
probe and of the three other git queries it may run. -/
structure GitEnv where
  /-- `git rev-parse --verify <remote>/<branch>` exits successfully. -/
  remoteRefOk : Bool
  /-- `git rev-list --count HEAD` (parsed count), or the command's failure. -/
  revListRes : Except String Nat
  /-- `git log --oneline -n 5 HEAD` raw output, or the command's failure. -/
  logLocalRes : Except String String
  /-- `git log --oneline <remote>/<branch>..HEAD` raw output, or failure. -/
  logRangeRes : Except String String

/-! ## `utils` (src/unnamed/part_000) -/

/-- `getWorktreesBaseDir`: `path.join(os.tmpdir(), 'vscode-git-auto-merge')`. -/
def getWorktreesBaseDir (tmpdir : String) : String :=
  pathJoin tmpdir "vscode-git-auto-merge"

/-- A `fs.Dirent` as far as `checkStaleWorktrees` consumes it. -/
structure DirEnt where
  name : String
  isDir : Bool
deriving DecidableEq, Repr

/-- `checkStaleWorktrees`: lists the base directory and keeps the
subdirectories whose name starts with `merge-`; a missing base directory
or a failing `readdirSync` yields `[]`. -/
def checkStaleWorktrees (tmpdir : String) (baseDirExists readdirOk : Bool)
    (entries : List DirEnt) : List String :=
  let baseDir := getWorktreesBaseDir tmpdir
  if !baseDirExists then []
  else if !readdirOk then []
  else
    (entries.filter (fun e => e.isDir && jsStartsWith e.name "merge-")).map
      (fun e => pathJoin baseDir e.name)

/-- `git worktree remove <basename> --force` is attempted only when a
repoPath was supplied; its failure is swallowed either way. -/
def staleRemoveTrace (repoPath : Option String) (worktreePath : String) : List Step :=
  if repoPath.isSome then [.staleGitRemove worktreePath] else []

/-- One iteration of the `cleanupStaleWorktrees` loop body on
`worktreePath`; returns the updated counters, filesystem and the recorded
steps. -/
def cleanupStaleStep (env : StaleEnv) (repoPath : Option String)
    (fs : List String) (worktreePath : String) (acc : Nat × Nat) :
    (Nat × Nat) × List String × List Step :=
  if !(jsIncludes worktreePath "vscode-git-auto-merge") then
    (acc, fs, [])
  else if worktreePath ∈ fs then
    if env.rmOk worktreePath then
      ((acc.1 + 1, acc.2), fs.erase worktreePath,
        staleRemoveTrace repoPath worktreePath ++ [.staleRm worktreePath])
    else
      -- `fs.rmSync` threw: caught by the per-entry catch, counted failed.
      ((acc.1, acc.2 + 1), fs,
        staleRemoveTrace repoPath worktreePath ++ [.staleRm worktreePath])
  else
    -- directory already gone: no removal attempted, still counted success
    ((acc.1 + 1, acc.2), fs, staleRemoveTrace repoPath worktreePath)

/-- `cleanupStaleWorktrees(worktreePaths, repoPath)`. -/
def cleanupStaleWorktrees (env : StaleEnv) (repoPath : Option String)
    (fs : List String) : List String → (Nat × Nat) × List String × List Step
  | [] => ((0, 0), fs, [])
  | p :: ps =>
    let (acc₁, fs₁, tr₁) := cleanupStaleStep env repoPath fs p (0, 0)
    let ((s, f), fs₂, tr₂) := cleanupStaleWorktrees env repoPath fs₁ ps
    ((acc₁.1 + s, acc₁.2 + f), fs₂, tr₁ ++ tr₂)

/-- `checkUnpushedCommits` before its outermost catch. -/
def checkUnpushedCommitsAux (env : GitEnv) : Except String UnpushedReport :=
  if !env.remoteRefOk then
    -- the remote-tracking ref does not exist: the branch was never pushed
    match env.revListRes with
    | .error e => .error e
    | .ok commitCount =>
      if commitCount > 0 then
        match env.logLocalRes with
        | .error e => .error e
        | .ok out => .ok ⟨true, commitCount, parseLogLines out⟩
      else
        .ok ⟨false, 0, []⟩
  else
    match env.logRangeRes with
    | .error e => .error e
    | .ok out =>
      let commits := parseLogLines out
      .ok ⟨decide (commits.length > 0), commits.length, commits.take 5⟩

/-- `checkUnpushedCommits(repoPath, branchName)`: any error reaching the
outermost catch yields the empty report. -/
def checkUnpushedCommits (env : GitEnv) : UnpushedReport :=
  match checkUnpushedCommitsAux env with
  | .ok r => r
  | .error _ => ⟨false, 0, []⟩

/-- The error-classification chain of `pushCurrentBranch` applied to the
underlying error text (`error.stderr || error.message || String(error)`). -/
def classifyPushError (errorMessage : String) : String :=
  if jsIncludes errorMessage "Permission denied" then
    "推送失败: 权限被拒绝，请检查 SSH 密钥或访问令牌"
  else if jsIncludes errorMessage "Could not resolve hostname" then
    "推送失败: 无法连接到远程仓库，请检查网络连接"
  else if jsIncludes errorMessage "rejected" then
    "推送失败: 推送被拒绝，可能需要先拉取远程更新"
  else if jsIncludes errorMessage "non-fast-forward" then
    "推送失败: 非快进更新，请先拉取并合并远程更改"
  else
    "推送分支失败: " ++ errorMessage

/-- `pushCurrentBranch(repoPath, branchName)` given the outcome of the
underlying `git push` (on failure the carried string is the error text). -/
def pushCurrentBranch (pushRes : Except String String) : Except String Unit :=
  match pushRes with
  | .ok _ => .ok ()
  | .error e => .error (classifyPushError e)

/-! ## `singleMerge` (src/unnamed/part_002) -/

/-- `createWorktreeConfig(repoPath, targetBranch, sourceBranch)`.  `now`
is the `Date.now()` millisecond value observed by the call and `tmpdir`
the machine's `os.tmpdir()`. -/
def createWorktreeConfig (now : Nat) (tmpdir : String)
    (repoPath targetBranch sourceBranch : String) : WorktreeConfig :=
  let timestamp := jsSliceLast6 (jsNumToString now)
  let safeBranchName := sanitizeBranchName targetBranch
  let worktreeName := "merge-" ++ safeBranchName ++ "-" ++ timestamp
  let worktreePath := pathJoin (getWorktreesBaseDir tmpdir) worktreeName
  ⟨repoPath, worktreePath, targetBranch, sourceBranch⟩

/-- The worktree name allocated by `createWorktreeConfig`. -/
def worktreeNameOf (now : Nat) (targetBranch : String) : String :=
  "merge-" ++ sanitizeBranchName targetBranch ++ "-" ++ jsSliceLast6 (jsNumToString now)

/-- `handleError(error, context)`: builds the message of the re-thrown
stage error. -/
def handleErrorMsg (context message : String) : String :=
  context ++ ": " ++ message

/-- i18n text `error.createWorktreeFailed` (default zh-cn table). -/
def tCreateWorktreeFailed : String := "创建工作区失败，请检查分支是否存在"
/-- i18n text `error.switchBranchFailed`. -/
def tSwitchBranchFailed : String := "切换到目标分支失败，请检查分支是否存在"
/-- i18n text `error.pullCodeFailed` with its `{0}` placeholder filled. -/
def tPullCodeFailed (targetBranch : String) : String := "拉取" ++ targetBranch ++ "代码失败"
/-- i18n text `error.mergeBranchFailed`. -/
def tMergeBranchFailed : String := "合并分支失败，可能存在代码冲突，请自行手工合并"
/-- i18n text `error.pushToRemoteFailed`. -/
def tPushToRemoteFailed : String := "推送失败，请检查权限和网络"

/-- `createWorktree`: `git worktree add "<path>" "<branch>"` in the repo;
on success the worktree directory exists. -/
def createWorktree (env : FlowEnv) (fs : List String)
    (repoPath worktreePath targetBranch : String) :
    Except String Unit × List String × List Step :=
  let _ := repoPath; let _ := targetBranch
  if env.createOk then (.ok (), worktreePath :: fs, [.create])
  else (.error (handleErrorMsg tCreateWorktreeFailed env.createErr), fs, [.create])

/-- `switchToTargetBranch`: `git switch "<branch>"` in the worktree. -/
def switchToTargetBranch (env : FlowEnv) (worktreePath targetBranch : String) :
    Except String Unit × List Step :=
  let _ := worktreePath; let _ := targetBranch
  if env.switchOk then (.ok (), [.switchBr])
  else (.error (handleErrorMsg tSwitchBranchFailed env.switchErr), [.switchBr])

/-- `pullLatestCode`: `git pull <remote> "<branch>"` in the worktree. -/
def pullLatestCode (env : FlowEnv) (worktreePath targetBranch : String) :
    Except String Unit × List Step :=
  let _ := worktreePath
  if env.pullOk then (.ok (), [.pull])
  else (.error (handleErrorMsg (tPullCodeFailed targetBranch) env.pullErr), [.pull])

/-- `mergeBranch`: `git merge "<remote>/<sourceBranch>"` in the worktree. -/
def mergeBranch (env : FlowEnv) (worktreePath sourceBranch targetBranch : String) :
    Except String Unit × List Step :=
  let _ := worktreePath; let _ := sourceBranch; let _ := targetBranch
  if env.mergeOk then (.ok (), [.mergeBr])
  else (.error (handleErrorMsg tMergeBranchFailed env.mergeErr), [.mergeBr])

/-- `pushToRemote`: `git push <remote> "<branch>"` in the worktree. -/
def pushToRemote (env : FlowEnv) (worktreePath targetBranch : String) :
    Except String Unit × List Step :=
  let _ := worktreePath; let _ := targetBranch
  if env.pushOk then (.ok (), [.push])
  else (.error (handleErrorMsg tPushToRemoteFailed env.pushErr), [.push])

/-- `getCurrentCommitId(repoPath)`: `git rev-parse HEAD`; returns `none`
on failure (its own catch). -/
def getCurrentCommitId (answer : Option String) : Option String × List Step :=
  (answer, [.revParse])

/-- `cleanupWorktree(config)`: when the worktree directory exists, runs
`git worktree remove "<basename>" --force` and then `fs.rmSync`; a thrown
error is swallowed (`console.warn`), in which case the directory
survives.  A missing directory makes the whole call a no-op.  The
function never raises. -/
def cleanupWorktree (env : FlowEnv) (fs : List String) (config : WorktreeConfig) :
    List String × List Step :=
  if config.worktreePath ∈ fs then
    if env.cleanupRemoveOk then
      (fs.erase config.worktreePath, [.cleanupCall, .cleanupGitRemove, .cleanupRm])
    else
      (fs, [.cleanupCall, .cleanupGitRemove])
  else
    (fs, [.cleanupCall])

/-- `checkAndPromptStaleWorktrees()`: scans (the scan result is supplied
as `staleList`) and, when non-empty, hands the entries to
`cleanupStaleWorktrees` together with the workspace path. -/
def checkAndPromptStaleWorktrees (env : StaleEnv) (staleList : List String)
    (workspacePath : Option String) (fs : List String) :
    List String × List Step :=
  if staleList = [] then (fs, [])
  else
    let (_, fs', tr) := cleanupStaleWorktrees env workspacePath fs staleList
    (fs', tr)

/-- The shared try-block of `executeSingleMergeFlow` and
`executeWorkTreeFlow`: create → switch → pull → rev-parse → merge →
rev-parse → push, with exception propagation; returns `hasNewCommits`
on success. -/
def mergeFlowBody (env : FlowEnv) (config : WorktreeConfig) (fs : List String) :
    Except String Bool × List String × List Step :=
  match createWorktree env fs config.repoPath config.worktreePath config.targetBranch with
  | (.error e, fs₁, t₁) => (.error e, fs₁, t₁)
  | (.ok _, fs₁, t₁) =>
  match switchToTargetBranch env config.worktreePath config.targetBranch with
  | (.error e, t₂) => (.error e, fs₁, t₁ ++ t₂)
  | (.ok _, t₂) =>
  match pullLatestCode env config.worktreePath config.targetBranch with
  | (.error e, t₃) => (.error e, fs₁, t₁ ++ t₂ ++ t₃)
  | (.ok _, t₃) =>
  let (beforeMergeCommitId, t₄) := getCurrentCommitId env.beforeCommit
  match mergeBranch env config.worktreePath config.sourceBranch config.targetBranch with
  | (.error e, t₅) => (.error e, fs₁, t₁ ++ t₂ ++ t₃ ++ t₄ ++ t₅)
  | (.ok _, t₅) =>
  let (afterMergeCommitId, t₆) := getCurrentCommitId env.afterCommit
  let hasNewCommits := beforeMergeCommitId ≠ afterMergeCommitId
  match pushToRemote env config.worktreePath config.targetBranch with
  | (.error e, t₇) => (.error e, fs₁, t₁ ++ t₂ ++ t₃ ++ t₄ ++ t₅ ++ t₆ ++ t₇)
  | (.ok _, t₇) =>
    (.ok hasNewCommits, fs₁, t₁ ++ t₂ ++ t₃ ++ t₄ ++ t₅ ++ t₆ ++ t₇)

/-- Terminal outcome of `executeWorkTreeFlow` (which message the flow
shows at its end). -/
inductive FlowOutcome where
  | succeeded
  | succeededNoOp
  | failed (msg : String)
deriving DecidableEq, Repr

/-- Whether a `FlowOutcome` reports failure. -/
def FlowOutcome.isFailed : FlowOutcome → Bool
  | .failed _ => true
  | _ => false

/-- `executeWorkTreeFlow(config)` from `singleMerge.ts`: stale check,
then the merge sequence, with `cleanupWorktree` on both the success path
and the catch path.  `staleList` is the scan result consumed by the
initial `checkAndPromptStaleWorktrees`. -/
def executeWorkTreeFlow (env : FlowEnv) (stEnv : StaleEnv) (staleList : List String)
    (workspacePath : Option String) (config : WorktreeConfig) (fs₀ : List String) :
    FlowOutcome × List String × List Step :=
  let (fs₁, tr₀) := checkAndPromptStaleWorktrees stEnv staleList workspacePath fs₀
  match mergeFlowBody env config fs₁ with
  | (.ok hasNewCommits, fs₂, tr) =>
    let (fs₃, ctr) := cleanupWorktree env fs₂ config
    ((if hasNewCommits then .succeeded else .succeededNoOp), fs₃, tr₀ ++ tr ++ ctr)
  | (.error e, fs₂, tr) =>
    let (fs₃, ctr) := cleanupWorktree env fs₂ config
    (.failed e, fs₃, tr₀ ++ tr ++ ctr)

/-! ## `multiMerge.ts` -/

/-- `executeSingleMergeFlow(targetBranch, sourceBranch, workspacePath)`:
builds the config, runs the merge sequence, and calls `cleanupWorktree`
on both the success path and the catch path (the commented-out stale
check is absent here). -/
def executeSingleMergeFlow (env : FlowEnv) (tmpdir : String)
    (targetBranch sourceBranch workspacePath : String) (fs₀ : List String) :
    MultipleMergeResult × List String × List Step :=
  let config := createWorktreeConfig env.now tmpdir workspacePath targetBranch sourceBranch
  match mergeFlowBody env config fs₀ with
  | (.ok hasNewCommits, fs₁, tr) =>
    let (fs₂, ctr) := cleanupWorktree env fs₁ config
    (⟨targetBranch, true, none, some hasNewCommits⟩, fs₂, tr ++ ctr)
  | (.error e, fs₁, tr) =>
    let (fs₂, ctr) := cleanupWorktree env fs₁ config
    (⟨targetBranch, false, some e, none⟩, fs₂, tr ++ ctr)

/-- The `for` loop of `executeMultipleMergeCore`: runs
`executeSingleMergeFlow` for each target in order, pushing each result.
`i` is the loop index (the world `envs i` is the state of the external
collaborators when target `i` runs). -/
def mergeLoop (envs : Nat → FlowEnv) (tmpdir : String)
    (sourceBranch workspacePath : String) (i : Nat) (fs : List String) :
    List String → List MultipleMergeResult × List String × List Step
  | [] => ([], fs, [])
  | targetBranch :: rest =>
    let (r, fs₁, tr₁) := executeSingleMergeFlow (envs i) tmpdir targetBranch sourceBranch workspacePath fs
    let (rs, fs₂, tr₂) := mergeLoop envs tmpdir sourceBranch workspacePath (i + 1) fs₁ rest
    (r :: rs, fs₂, tr₁ ++ tr₂)

/-- `executeMultipleMergeCore(targetBranches, sourceBranch, workspacePath,
title)`: one stale check at batch start, then the per-target loop. -/
def executeMultipleMergeCore (envs : Nat → FlowEnv) (stEnv : StaleEnv)
    (staleList : List String) (tmpdir : String)
    (targetBranches : List String) (sourceBranch workspacePath : String)
    (fs₀ : List String) : List MultipleMergeResult × List String × List Step :=
  let (fs₁, tr₀) := checkAndPromptStaleWorktrees stEnv staleList (some workspacePath) fs₀
  let (rs, fs₂, tr) := mergeLoop envs tmpdir sourceBranch workspacePath 0 fs₁ targetBranches
  (rs, fs₂, tr₀ ++ tr)

/-- The result sequence the batch coordinator is expected to produce:
target `i` run through the single-target flow under world `envs i`
(stated over the empty filesystem; the flow's returned
`MultipleMergeResult` does not depend on the filesystem). -/
def expectedBatchResults (envs : Nat → FlowEnv) (tmpdir : String)
    (sourceBranch workspacePath : String) : Nat → List String → List MultipleMergeResult
  | _, [] => []
  | i, t :: ts =>
    (executeSingleMergeFlow (envs i) tmpdir t sourceBranch workspacePath []).1 ::
      expectedBatchResults envs tmpdir sourceBranch workspacePath (i + 1) ts

/-! ## Decimal representation: characterizing `Nat.repr` -/

/-- Big-endian decimal digit characters of `n`; reference function used
to reason about `Nat.repr`. -/
def natDigitsBE (n : Nat) : List Char :=
  if _h : n < 10 then [Nat.digitChar n]
  else natDigitsBE (n / 10) ++ [Nat.digitChar (n % 10)]
decreasing_by exact Nat.div_lt_self (by omega) (by omega)

theorem natDigitsBE_small {n : Nat} (h : n < 10) :
    natDigitsBE n = [Nat.digitChar n] := by
  rw [natDigitsBE]; simp [h]

theorem natDigitsBE_large {n : Nat} (h : ¬ n < 10) :
    natDigitsBE n = natDigitsBE (n / 10) ++ [Nat.digitChar (n % 10)] := by
  rw [natDigitsBE]; simp [h]

theorem natDigitsBE_ne_nil (n : Nat) : natDigitsBE n ≠ [] := by
  by_cases h : n < 10
  · rw [natDigitsBE_small h]; simp
  · rw [natDigitsBE_large h]; simp

theorem natDigitsBE_length_pos (n : Nat) : 0 < (natDigitsBE n).length :=
  List.length_pos.mpr (natDigitsBE_ne_nil n)

theorem toDigitsCore_eq_natDigitsBE :
    ∀ (fuel n : Nat) (acc : List Char), n < fuel →
      Nat.toDigitsCore 10 fuel n acc = natDigitsBE n ++ acc := by
  intro fuel
  induction fuel with
  | zero => intro n acc h; omega
  | succ m ih =>
    intro n acc h
    by_cases h10 : n < 10
    · have hq : n / 10 = 0 := Nat.div_eq_of_lt h10
      have hm : n % 10 = n := Nat.mod_eq_of_lt h10
      simp [Nat.toDigitsCore, hq, hm, natDigitsBE_small h10]
    · have hq : ¬ n / 10 = 0 := by
        intro hc
        exact h10 (by omega)
      have hlt : n / 10 < m := by
        have : n / 10 < n := Nat.div_lt_self (by omega) (by omega)
        omega
      rw [natDigitsBE_large h10]
      simp only [Nat.toDigitsCore, hq, if_false]
      rw [ih (n / 10) (Nat.digitChar (n % 10) :: acc) hlt]
      simp

/-- The characters of `Nat.repr n` are exactly `natDigitsBE n`. -/
theorem repr_data_eq_natDigitsBE (n : Nat) :
    (Nat.repr n).data = natDigitsBE n := by
  show (Nat.toDigits 10 n).asString.data = natDigitsBE n
  unfold Nat.toDigits List.asString
  rw [toDigitsCore_eq_natDigitsBE (n + 1) n [] (by omega)]
  simp

theorem digitChar_inj_lt : ∀ a < 10, ∀ b < 10,
    Nat.digitChar a = Nat.digitChar b → a = b := by decide

theorem digitChar_isDigit : ∀ a < 10, (Nat.digitChar a).isDigit = true := by decide

/-- Every character of `natDigitsBE n` is a decimal digit. -/
theorem natDigitsBE_all_digits (n : Nat) :
    ∀ c ∈ natDigitsBE n, c.isDigit = true := by
  induction n using Nat.strong_induction_on with
  | _ n ih =>
    by_cases h : n < 10
    · rw [natDigitsBE_small h]
      intro c hc
      simp at hc
      subst hc
      exact digitChar_isDigit n h
    · rw [natDigitsBE_large h]
      intro c hc
      rcases List.mem_append.mp hc with hc | hc
      · exact ih (n / 10) (Nat.div_lt_self (by omega) (by omega)) c hc
      · simp at hc
        subst hc
        exact digitChar_isDigit (n % 10) (Nat.mod_lt _ (by omega))

/-- `natDigitsBE` is injective. -/
theorem natDigitsBE_inj : ∀ n m : Nat, natDigitsBE n = natDigitsBE m → n = m := by
  intro n
  induction n using Nat.strong_induction_on with
  | _ n ih =>
    intro m h
    by_cases hn : n < 10 <;> by_cases hm : m < 10
    · rw [natDigitsBE_small hn, natDigitsBE_small hm] at h
      exact digitChar_inj_lt n hn m hm (by simpa using h)
    · rw [natDigitsBE_small hn, natDigitsBE_large hm] at h
      have h1 : (1 : Nat) = (natDigitsBE (m / 10)).length + 1 := by
        simpa using congrArg List.length h
      have h2 := natDigitsBE_length_pos (m / 10)
      omega
    · rw [natDigitsBE_large hn, natDigitsBE_small hm] at h
      have h1 : (natDigitsBE (n / 10)).length + 1 = (1 : Nat) := by
        simpa using congrArg List.length h
      have h2 := natDigitsBE_length_pos (n / 10)
      omega
    · rw [natDigitsBE_large hn, natDigitsBE_large hm] at h
      have h' := congrArg List.reverse h
      simp at h'
      obtain ⟨hd, ht⟩ := h'
      have hdiv : n / 10 = m / 10 :=
        ih (n / 10) (Nat.div_lt_self (by omega) (by omega)) (m / 10) ht
      have hmod : n % 10 = m % 10 :=
        digitChar_inj_lt (n % 10) (Nat.mod_lt _ (by omega)) (m % 10)
          (Nat.mod_lt _ (by omega)) hd
      omega

/-- Digit-count bound: `n < 10 ^ k` (with `1 ≤ k`) has at most `k`
decimal digits. -/
theorem natDigitsBE_length_le : ∀ n k : Nat, 1 ≤ k → n < 10 ^ k →
    (natDigitsBE n).length ≤ k := by
  intro n
  induction n using Nat.strong_induction_on with
  | _ n ih =>
    intro k hk hlt
    by_cases h : n < 10
    · rw [natDigitsBE_small h]; simpa using hk
    · have hk2 : 2 ≤ k := by
        by_contra hc
        have : k = 1 := by omega
        subst this
        simp at hlt
        omega
      rw [natDigitsBE_large h]
      have hdiv : n / 10 < 10 ^ (k - 1) := by
        rw [Nat.div_lt_iff_lt_mul (by omega)]
        calc n < 10 ^ k := hlt
        _ = 10 ^ (k - 1) * 10 := by
            rw [← Nat.pow_succ]
            congr 1
            omega
      have := ih (n / 10) (Nat.div_lt_self (by omega) (by omega)) (k - 1) (by omega) hdiv
      simp
      omega

/-- Splitting off the last three decimal digits: for `1 ≤ q` and
`r < 1000`, the digits of `1000 * q + r` are the digits of `q` followed
by the three zero-padded digits of `r`. -/
theorem natDigitsBE_thousand_split (q r : Nat) (hq : 1 ≤ q) (hr : r < 1000) :
    natDigitsBE (1000 * q + r) =
      natDigitsBE q ++
        [Nat.digitChar (r / 100), Nat.digitChar (r / 10 % 10), Nat.digitChar (r % 10)] := by
  have h₀ : ¬ 1000 * q + r < 10 := by omega
  have e₀d : (1000 * q + r) / 10 = 100 * q + r / 10 := by omega
  have e₀m : (1000 * q + r) % 10 = r % 10 := by omega
  have h₁ : ¬ 100 * q + r / 10 < 10 := by omega
  have e₁d : (100 * q + r / 10) / 10 = 10 * q + r / 100 := by omega
  have e₁m : (100 * q + r / 10) % 10 = r / 10 % 10 := by omega
  have h₂ : ¬ 10 * q + r / 100 < 10 := by omega
  have e₂d : (10 * q + r / 100) / 10 = q := by omega
  have e₂m : (10 * q + r / 100) % 10 = r / 100 := by omega
  rw [natDigitsBE_large h₀, e₀d, e₀m, natDigitsBE_large h₁, e₁d, e₁m,
    natDigitsBE_large h₂, e₂d, e₂m]
  simp

/-- Two distinct millisecond timestamps of the same second produce
distinct 6-character suffixes. -/
theorem timestampSuffix_inj_same_second {n m : Nat} (hne : n ≠ m)
    (hsec : n / 1000 = m / 1000) :
    jsSliceLast6 (jsNumToString n) ≠ jsSliceLast6 (jsNumToString m) := by
  intro heq
  have hdata : (natDigitsBE n).drop ((natDigitsBE n).length - 6) =
      (natDigitsBE m).drop ((natDigitsBE m).length - 6) := by
    have h := congrArg String.data heq
    simpa [jsSliceLast6, jsNumToString, repr_data_eq_natDigitsBE] using h
  by_cases hq : n / 1000 = 0
  · -- both below 1000: the suffix is the whole digit string
    have hn1000 : n < 1000 := by omega
    have hm1000 : m < 1000 := by omega
    have hp6 : (1000 : Nat) ≤ 10 ^ 6 := by norm_num
    have hln : (natDigitsBE n).length ≤ 6 :=
      natDigitsBE_length_le n 6 (by omega) (by omega)
    have hlm : (natDigitsBE m).length ≤ 6 :=
      natDigitsBE_length_le m 6 (by omega) (by omega)
    rw [Nat.sub_eq_zero_of_le hln, Nat.sub_eq_zero_of_le hlm] at hdata
    simp at hdata
    exact hne (natDigitsBE_inj n m hdata)
  · -- same second block: digits differ only in the padded last three
    have hq1 : 1 ≤ n / 1000 := by omega
    have hn' : n = 1000 * (n / 1000) + n % 1000 := by omega
    have hm' : m = 1000 * (n / 1000) + m % 1000 := by omega
    have hrs : n % 1000 ≠ m % 1000 := by omega
    have hdn := natDigitsBE_thousand_split (n / 1000) (n % 1000) hq1 (by omega)
    have hdm := natDigitsBE_thousand_split (n / 1000) (m % 1000) hq1 (by omega)
    rw [← hn'] at hdn
    rw [← hm'] at hdm
    rw [hdn, hdm] at hdata
    simp only [List.length_append, List.length_cons, List.length_nil] at hdata
    have hk : (natDigitsBE (n / 1000)).length + (0 + 1 + 1 + 1) - 6 ≤
        (natDigitsBE (n / 1000)).length := by omega
    rw [List.drop_append_of_le_length hk, List.drop_append_of_le_length hk] at hdata
    have hPS := List.append_cancel_left hdata
    simp only [List.cons.injEq, and_true] at hPS
    obtain ⟨e₁, e₂, e₃⟩ := hPS
    have n₁ := digitChar_inj_lt (n % 1000 / 100) (by omega) (m % 1000 / 100) (by omega) e₁
    have n₂ := digitChar_inj_lt (n % 1000 / 10 % 10) (by omega) (m % 1000 / 10 % 10) (by omega) e₂
    have n₃ := digitChar_inj_lt (n % 1000 % 10) (by omega) (m % 1000 % 10) (by omega) e₃
    omega

/-! ## Helper lemmas about the modelled operations -/

theorem leadsWith_append (p t : List Char) : leadsWith p (p ++ t) = true := by
  induction p with
  | nil => simp [leadsWith]
  | cons a p ih => simp [leadsWith, ih]

theorem hasSub_append : ∀ (x p y : List Char), hasSub p (x ++ (p ++ y)) = true := by
  intro x
  induction x with
  | nil =>
    intro p y
    cases hp : p ++ y with
    | nil =>
      have : p = [] := by
        cases p <;> simp_all
      simp [this, hasSub, leadsWith]
    | cons b l =>
      simp only [List.nil_append, hp, hasSub]
      rw [← hp, leadsWith_append]
      simp
  | cons c x ih =>
    intro p y
    simp only [List.cons_append, hasSub, List.append_eq]
    rw [ih p y]
    simp

/-- The filesystem after a single stale-cleanup iteration is a sublist of
the one before. -/
theorem cleanupStaleStep_sublist (env : StaleEnv) (rp : Option String)
    (fs : List String) (p : String) (acc : Nat × Nat) :
    (cleanupStaleStep env rp fs p acc).2.1.Sublist fs := by
  unfold cleanupStaleStep
  split_ifs <;> first
    | exact List.Sublist.refl _
    | exact List.erase_sublist _ _

/-- The stale cleaner only ever removes directories. -/
theorem cleanupStaleWorktrees_sublist (env : StaleEnv) (rp : Option String) :
    ∀ (ps : List String) (fs : List String),
      (cleanupStaleWorktrees env rp fs ps).2.1.Sublist fs := by
  intro ps
  induction ps with
  | nil => intro fs; exact List.Sublist.refl _
  | cons p rest ih =>
    intro fs
    show (cleanupStaleWorktrees env rp fs (p :: rest)).2.1.Sublist fs
    unfold cleanupStaleWorktrees
    have h₁ := cleanupStaleStep_sublist env rp fs p (0, 0)
    have h₂ := ih (cleanupStaleStep env rp fs p (0, 0)).2.1
    exact (h₂.trans h₁).trans (List.Sublist.refl _) |>.trans (List.Sublist.refl _)

theorem mem_staleRemoveTrace {rp : Option String} {p : String} {s : Step}
    (hs : s ∈ staleRemoveTrace rp p) : s = Step.staleGitRemove p := by
  unfold staleRemoveTrace at hs
  split_ifs at hs <;> simp_all

/-- Every step recorded by one stale-cleanup iteration on `p` refers to
`p`. -/
theorem cleanupStaleStep_trace_shape (env : StaleEnv) (rp : Option String)
    (fs : List String) (p : String) (acc : Nat × Nat) :
    ∀ s ∈ (cleanupStaleStep env rp fs p acc).2.2,
      s = Step.staleGitRemove p ∨ s = Step.staleRm p := by
  intro s hs
  unfold cleanupStaleStep at hs
  split_ifs at hs with h₁ h₂ h₃
  · simp at hs
  · rcases List.mem_append.mp hs with h | h
    · exact Or.inl (mem_staleRemoveTrace h)
    · simp at h
      exact Or.inr h
  · rcases List.mem_append.mp hs with h | h
    · exact Or.inl (mem_staleRemoveTrace h)
    · simp at h
      exact Or.inr h
  · exact Or.inl (mem_staleRemoveTrace hs)

/-- Every step recorded by the stale cleaner refers to one of the
processed entries. -/
theorem cleanupStaleWorktrees_trace_shape (env : StaleEnv) (rp : Option String) :
    ∀ (ps : List String) (fs : List String),
      ∀ s ∈ (cleanupStaleWorktrees env rp fs ps).2.2,
        ∃ p ∈ ps, s = Step.staleGitRemove p ∨ s = Step.staleRm p := by
  intro ps
  induction ps with
  | nil => intro fs s hs; simp [cleanupStaleWorktrees] at hs
  | cons p rest ih =>
    intro fs s hs
    unfold cleanupStaleWorktrees at hs
    simp only [List.mem_append] at hs
    rcases hs with hs | hs
    · exact ⟨p, List.mem_cons_self p rest, cleanupStaleStep_trace_shape env rp fs p (0, 0) s hs⟩
    · obtain ⟨q, hq, hsq⟩ := ih _ s hs
      exact ⟨q, List.mem_cons_of_mem p hq, hsq⟩

/-- After the stale cleaner runs, a marker-containing entry whose
filesystem removal succeeds is gone (the input filesystem listed each
directory once). -/
theorem cleanupStaleWorktrees_removes (env : StaleEnv) (rp : Option String) :
    ∀ (ps : List String) (fs : List String), fs.Nodup →
      ∀ p ∈ ps, jsIncludes p "vscode-git-auto-merge" = true → env.rmOk p = true →
        p ∉ (cleanupStaleWorktrees env rp fs ps).2.1 := by
  intro ps
  induction ps with
  | nil => intro fs _ p hp; simp at hp
  | cons q rest ih =>
    intro fs hnd p hp hmk hrm
    unfold cleanupStaleWorktrees
    rcases List.mem_cons.mp hp with rfl | hp
    · -- the entry itself is processed first
      by_cases hmem : p ∈ fs
      · have hstep : (cleanupStaleStep env rp fs p (0, 0)).2.1 = fs.erase p := by
          unfold cleanupStaleStep
          simp [hmk, hmem, hrm]
        intro hmem'
        have hsub := cleanupStaleWorktrees_sublist env rp rest (cleanupStaleStep env rp fs p (0, 0)).2.1
        have : p ∈ (cleanupStaleStep env rp fs p (0, 0)).2.1 := hsub.mem hmem'
        rw [hstep] at this
        exact ((hnd.mem_erase_iff.mp this).1) rfl
      · have hstep : (cleanupStaleStep env rp fs p (0, 0)).2.1 = fs := by
          unfold cleanupStaleStep
          simp [hmk, hmem, hrm]
        intro hmem'
        have hsub := cleanupStaleWorktrees_sublist env rp rest (cleanupStaleStep env rp fs p (0, 0)).2.1
        have := hsub.mem hmem'
        rw [hstep] at this
        exact hmem this
    · have hnd' : (cleanupStaleStep env rp fs q (0, 0)).2.1.Nodup :=
        (cleanupStaleStep_sublist env rp fs q (0, 0)).nodup hnd
      exact ih (cleanupStaleStep env rp fs q (0, 0)).2.1 hnd' p hp hmk hrm

/-- A non-marker entry is skipped outright: its membership in the
filesystem is untouched and no step refers to it. -/
theorem cleanupStaleWorktrees_skips (env : StaleEnv) (rp : Option String) :
    ∀ (ps : List String) (fs : List String) (p : String),
      jsIncludes p "vscode-git-auto-merge" = false →
      ((p ∈ (cleanupStaleWorktrees env rp fs ps).2.1 ↔ p ∈ fs) ∧
        Step.staleGitRemove p ∉ (cleanupStaleWorktrees env rp fs ps).2.2 ∧
        Step.staleRm p ∉ (cleanupStaleWorktrees env rp fs ps).2.2) := by
  intro ps
  induction ps with
  | nil => intro fs p hmk; simp [cleanupStaleWorktrees]
  | cons q rest ih =>
    intro fs p hmk
    have hqp : ∀ fs', (cleanupStaleStep env rp fs' q (0, 0)).2.1 = fs' ∨
        (cleanupStaleStep env rp fs' q (0, 0)).2.1 = fs'.erase q ∧
          jsIncludes q "vscode-git-auto-merge" = true := by
      intro fs'
      unfold cleanupStaleStep
      split_ifs with h₁ h₂ h₃
      · exact Or.inl rfl
      · exact Or.inr ⟨rfl, by simpa using h₁⟩
      · exact Or.inl rfl
      · exact Or.inl rfl
    have hqtr : ∀ fs', Step.staleGitRemove p ∉ (cleanupStaleStep env rp fs' q (0, 0)).2.2 ∧
        Step.staleRm p ∉ (cleanupStaleStep env rp fs' q (0, 0)).2.2 := by
      intro fs'
      by_cases hq : q = p
      · subst hq
        unfold cleanupStaleStep
        simp [hmk]
      · refine ⟨fun hmem => ?_, fun hmem => ?_⟩
        · rcases cleanupStaleStep_trace_shape env rp fs' q (0, 0) _ hmem with h | h
          · simp at h
            exact hq h.symm
          · simp at h
        · rcases cleanupStaleStep_trace_shape env rp fs' q (0, 0) _ hmem with h | h
          · simp at h
          · simp at h
            exact hq h.symm
    constructor
    · unfold cleanupStaleWorktrees
      have hrec := (ih (cleanupStaleStep env rp fs q (0, 0)).2.1 p hmk).1
      rw [hrec]
      rcases hqp fs with h | ⟨h, hqmk⟩
      · rw [h]
      · have hne : p ≠ q := by
          intro hc
          subst hc
          rw [hmk] at hqmk
          cases hqmk
        rw [h]
        exact List.mem_erase_of_ne hne
    · unfold cleanupStaleWorktrees
      have hrec := ih (cleanupStaleStep env rp fs q (0, 0)).2.1 p hmk
      have hstep := hqtr fs
      constructor <;> intro hmem <;> rcases List.mem_append.mp hmem with h | h
      · exact hstep.1 h
      · exact hrec.2.1 h
      · exact hstep.2 h
      · exact hrec.2.2 h

/-! ### Lemmas about `cleanupWorktree` and the merge-flow body -/

theorem cleanupWorktree_count (env : FlowEnv) (fs : List String) (config : WorktreeConfig) :
    ((cleanupWorktree env fs config).2).count Step.cleanupCall = 1 := by
  unfold cleanupWorktree
  split_ifs <;> rfl

theorem cleanupWorktree_no_push (env : FlowEnv) (fs : List String) (config : WorktreeConfig) :
    Step.push ∉ (cleanupWorktree env fs config).2 := by
  unfold cleanupWorktree
  split_ifs <;> simp

theorem cleanupWorktree_not_mem (env : FlowEnv) (fs : List String) (config : WorktreeConfig)
    (hp : config.worktreePath ∉ fs) :
    cleanupWorktree env fs config = (fs, [Step.cleanupCall]) := by
  unfold cleanupWorktree
  simp [hp]

theorem cleanupWorktree_cons (env : FlowEnv) (fs₀ : List String) (config : WorktreeConfig)
    (hc : env.cleanupRemoveOk = true) :
    cleanupWorktree env (config.worktreePath :: fs₀) config =
      (fs₀, [Step.cleanupCall, Step.cleanupGitRemove, Step.cleanupRm]) := by
  unfold cleanupWorktree
  simp [hc]

theorem mergeFlowBody_fs (env : FlowEnv) (config : WorktreeConfig) (fs : List String) :
    (mergeFlowBody env config fs).2.1 =
      if env.createOk then config.worktreePath :: fs else fs := by
  unfold mergeFlowBody createWorktree switchToTargetBranch pullLatestCode mergeBranch
    pushToRemote getCurrentCommitId
  cases hc : env.createOk <;> cases hs : env.switchOk <;> cases hp : env.pullOk <;>
    cases hm : env.mergeOk <;> cases hx : env.pushOk <;> simp

theorem mergeFlowBody_no_cleanupCall (env : FlowEnv) (config : WorktreeConfig) (fs : List String) :
    Step.cleanupCall ∉ (mergeFlowBody env config fs).2.2 := by
  unfold mergeFlowBody createWorktree switchToTargetBranch pullLatestCode mergeBranch
    pushToRemote getCurrentCommitId
  cases hc : env.createOk <;> cases hs : env.switchOk <;> cases hp : env.pullOk <;>
    cases hm : env.mergeOk <;> cases hx : env.pushOk <;> simp

/-- When the merge stage fails, the body raises and never records a push. -/
theorem mergeFlowBody_merge_fail (env : FlowEnv) (config : WorktreeConfig) (fs : List String)
    (hm : env.mergeOk = false) :
    (∃ e, (mergeFlowBody env config fs).1 = Except.error e) ∧
      Step.push ∉ (mergeFlowBody env config fs).2.2 := by
  unfold mergeFlowBody createWorktree switchToTargetBranch pullLatestCode mergeBranch
    pushToRemote getCurrentCommitId
  cases hc : env.createOk <;> cases hs : env.switchOk <;> cases hp : env.pullOk <;> simp [hm]

/-- The flow body's outcome and trace do not depend on the filesystem. -/
theorem mergeFlowBody_res_indep (env : FlowEnv) (config : WorktreeConfig) (fs fs' : List String) :
    (mergeFlowBody env config fs).1 = (mergeFlowBody env config fs').1 ∧
      (mergeFlowBody env config fs).2.2 = (mergeFlowBody env config fs').2.2 := by
  unfold mergeFlowBody createWorktree switchToTargetBranch pullLatestCode mergeBranch
    pushToRemote getCurrentCommitId
  cases hc : env.createOk <;> cases hs : env.switchOk <;> cases hp : env.pullOk <;>
    cases hm : env.mergeOk <;> cases hx : env.pushOk <;> simp

/-! ### Lemmas about the two single-target flows -/

theorem executeSingleMergeFlow_cleanup_once (env : FlowEnv) (tmpdir t s w : String)
    (fs₀ : List String) :
    ((executeSingleMergeFlow env tmpdir t s w fs₀).2.2).count Step.cleanupCall = 1 := by
  unfold executeSingleMergeFlow
  rcases hb : mergeFlowBody env (createWorktreeConfig env.now tmpdir w t s) fs₀ with ⟨res, fsb, trb⟩
  have hnc : Step.cleanupCall ∉ trb := by
    have h := mergeFlowBody_no_cleanupCall env (createWorktreeConfig env.now tmpdir w t s) fs₀
    rw [hb] at h
    exact h
  rcases hcl : cleanupWorktree env fsb (createWorktreeConfig env.now tmpdir w t s) with ⟨fsc, ctr⟩
  have hct : ctr.count Step.cleanupCall = 1 := by
    have h := cleanupWorktree_count env fsb (createWorktreeConfig env.now tmpdir w t s)
    rw [hcl] at h
    exact h
  cases res <;> simp [hb, hcl, List.count_append, hct, List.count_eq_zero.mpr hnc]

theorem executeSingleMergeFlow_removed (env : FlowEnv) (tmpdir t s w : String)
    (fs₀ : List String)
    (hp : (createWorktreeConfig env.now tmpdir w t s).worktreePath ∉ fs₀)
    (hc : env.cleanupRemoveOk = true) :
    (createWorktreeConfig env.now tmpdir w t s).worktreePath ∉
      (executeSingleMergeFlow env tmpdir t s w fs₀).2.1 := by
  unfold executeSingleMergeFlow
  have hfs := mergeFlowBody_fs env (createWorktreeConfig env.now tmpdir w t s) fs₀
  rcases hb : mergeFlowBody env (createWorktreeConfig env.now tmpdir w t s) fs₀ with ⟨res, fsb, trb⟩
  rw [hb] at hfs
  simp only at hfs
  cases hco : env.createOk
  · rw [hco] at hfs
    simp at hfs
    subst hfs
    have hcl := cleanupWorktree_not_mem env fsb (createWorktreeConfig env.now tmpdir w t s) hp
    cases res <;> simp [hb, hcl, hp]
  · rw [hco] at hfs
    simp at hfs
    subst hfs
    have hcl := cleanupWorktree_cons env fs₀ (createWorktreeConfig env.now tmpdir w t s) hc
    cases res <;> simp [hb, hcl, hp]

theorem executeSingleMergeFlow_res_indep (env : FlowEnv) (tmpdir t s w : String)
    (fs fs' : List String) :
    (executeSingleMergeFlow env tmpdir t s w fs).1 =
      (executeSingleMergeFlow env tmpdir t s w fs').1 := by
  unfold executeSingleMergeFlow
  have h := mergeFlowBody_res_indep env (createWorktreeConfig env.now tmpdir w t s) fs fs'
  rcases hb : mergeFlowBody env (createWorktreeConfig env.now tmpdir w t s) fs with ⟨res, a, b⟩
  rcases hb' : mergeFlowBody env (createWorktreeConfig env.now tmpdir w t s) fs' with ⟨res', a', b'⟩
  rw [hb, hb'] at h
  obtain ⟨h₁, -⟩ := h
  simp only at h₁
  subst h₁
  cases res <;> simp [hb, hb']

theorem executeSingleMergeFlow_targetBranch (env : FlowEnv) (tmpdir t s w : String)
    (fs : List String) :
    (executeSingleMergeFlow env tmpdir t s w fs).1.targetBranch = t := by
  unfold executeSingleMergeFlow
  rcases hb : mergeFlowBody env (createWorktreeConfig env.now tmpdir w t s) fs with ⟨res, a, b⟩
  cases res <;> simp [hb]

theorem checkAndPrompt_sublist (stEnv : StaleEnv) (staleList : List String)
    (wsOpt : Option String) (fs : List String) :
    (checkAndPromptStaleWorktrees stEnv staleList wsOpt fs).1.Sublist fs := by
  unfold checkAndPromptStaleWorktrees
  split_ifs
  · exact List.Sublist.refl _
  · exact cleanupStaleWorktrees_sublist stEnv wsOpt staleList fs

theorem checkAndPrompt_trace (stEnv : StaleEnv) (staleList : List String)
    (wsOpt : Option String) (fs : List String) :
    ∀ st ∈ (checkAndPromptStaleWorktrees stEnv staleList wsOpt fs).2,
      (∃ p, st = Step.staleGitRemove p) ∨ (∃ p, st = Step.staleRm p) := by
  unfold checkAndPromptStaleWorktrees
  split_ifs
  · simp
  · intro st hst
    obtain ⟨p, -, h⟩ := cleanupStaleWorktrees_trace_shape stEnv wsOpt staleList fs st hst
    rcases h with h | h
    · exact Or.inl ⟨p, h⟩
    · exact Or.inr ⟨p, h⟩

theorem executeWorkTreeFlow_cleanup_once (env : FlowEnv) (stEnv : StaleEnv)
    (staleList : List String) (wsOpt : Option String) (config : WorktreeConfig)
    (fs₀ : List String) :
    ((executeWorkTreeFlow env stEnv staleList wsOpt config fs₀).2.2).count Step.cleanupCall = 1 := by
  unfold executeWorkTreeFlow
  rcases hpre : checkAndPromptStaleWorktrees stEnv staleList wsOpt fs₀ with ⟨fs₁, tr₀⟩
  have hpre0 : Step.cleanupCall ∉ tr₀ := by
    intro hmem
    have h := checkAndPrompt_trace stEnv staleList wsOpt fs₀ Step.cleanupCall
      (by rw [hpre]; exact hmem)
    rcases h with ⟨p, h⟩ | ⟨p, h⟩ <;> cases h
  rcases hb : mergeFlowBody env config fs₁ with ⟨res, fsb, trb⟩
  have hnc : Step.cleanupCall ∉ trb := by
    have h := mergeFlowBody_no_cleanupCall env config fs₁
    rw [hb] at h
    exact h
  rcases hcl : cleanupWorktree env fsb config with ⟨fsc, ctr⟩
  have hct : ctr.count Step.cleanupCall = 1 := by
    have h := cleanupWorktree_count env fsb config
    rw [hcl] at h
    exact h
  cases res <;>
    simp [hpre, hb, hcl, List.count_append, hct, List.count_eq_zero.mpr hnc,
      List.count_eq_zero.mpr hpre0]

theorem executeWorkTreeFlow_removed (env : FlowEnv) (stEnv : StaleEnv)
    (staleList : List String) (wsOpt : Option String) (config : WorktreeConfig)
    (fs₀ : List String)
    (hp : config.worktreePath ∉ fs₀) (hc : env.cleanupRemoveOk = true) :
    config.worktreePath ∉ (executeWorkTreeFlow env stEnv staleList wsOpt config fs₀).2.1 := by
  unfold executeWorkTreeFlow
  rcases hpre : checkAndPromptStaleWorktrees stEnv staleList wsOpt fs₀ with ⟨fs₁, tr₀⟩
  have hp₁ : config.worktreePath ∉ fs₁ := by
    intro hmem
    have hsub := checkAndPrompt_sublist stEnv staleList wsOpt fs₀
    rw [hpre] at hsub
    exact hp (hsub.mem hmem)
  have hfs := mergeFlowBody_fs env config fs₁
  rcases hb : mergeFlowBody env config fs₁ with ⟨res, fsb, trb⟩
  rw [hb] at hfs
  simp only at hfs
  cases hco : env.createOk
  · rw [hco] at hfs
    simp at hfs
    subst hfs
    have hcl := cleanupWorktree_not_mem env fsb config hp₁
    cases res <;> simp [hpre, hb, hcl, hp₁]
  · rw [hco] at hfs
    simp at hfs
    subst hfs
    have hcl := cleanupWorktree_cons env fs₁ config hc
    cases res <;> simp [hpre, hb, hcl, hp₁]

/-! ## Claim theorems -/

/-- A fully healthy external world (every git invocation succeeds). -/
def envAllOk : FlowEnv :=
  ⟨0, true, true, true, true, true, true, some "c1", some "c2", "e", "e", "e", "e", "e"⟩

/-- A world in which the `git merge` invocation fails. -/
def envMergeFail : FlowEnv := { envAllOk with mergeOk := false }

/-- A stale-cleaner world in which every `fs.rmSync` succeeds. -/
def stAllOk : StaleEnv := ⟨fun _ => true⟩

/-- **C1** For every valid merge job, the single-target flow
(`executeSingleMergeFlow` / `executeWorkTreeFlow`) records exactly one
`cleanupWorktree` invocation before returning, on the success path and on
every failure path alike; and — provided the swallowed-failure step
inside `cleanupWorktree` (its `git worktree remove`) succeeds — the
worktree directory created for the job is absent from the filesystem when
the flow returns, regardless of which stage failed. -/
theorem flow_cleanup_exactly_once_and_worktree_removed
    (env : FlowEnv) (stEnv : StaleEnv) (staleList : List String) (wsOpt : Option String)
    (tmpdir targetBranch sourceBranch workspacePath : String)
    (config : WorktreeConfig) (fs₀ fs₀' : List String)
    (hp : (createWorktreeConfig env.now tmpdir workspacePath targetBranch
        sourceBranch).worktreePath ∉ fs₀)
    (hp' : config.worktreePath ∉ fs₀')
    (hc : env.cleanupRemoveOk = true) :
    ((executeSingleMergeFlow env tmpdir targetBranch sourceBranch workspacePath
        fs₀).2.2).count Step.cleanupCall = 1 ∧
    (createWorktreeConfig env.now tmpdir workspacePath targetBranch
        sourceBranch).worktreePath ∉
      (executeSingleMergeFlow env tmpdir targetBranch sourceBranch workspacePath fs₀).2.1 ∧
    ((executeWorkTreeFlow env stEnv staleList wsOpt config
        fs₀').2.2).count Step.cleanupCall = 1 ∧
    config.worktreePath ∉ (executeWorkTreeFlow env stEnv staleList wsOpt config fs₀').2.1 :=
  ⟨executeSingleMergeFlow_cleanup_once env tmpdir targetBranch sourceBranch workspacePath fs₀,
   executeSingleMergeFlow_removed env tmpdir targetBranch sourceBranch workspacePath fs₀ hp hc,
   executeWorkTreeFlow_cleanup_once env stEnv staleList wsOpt config fs₀',
   executeWorkTreeFlow_removed env stEnv staleList wsOpt config fs₀' hp' hc⟩

/-- Witness for C1: the guarantee instantiated in a healthy world on a
concrete job. -/
theorem flow_cleanup_exactly_once_and_worktree_removed_witness :
    ((executeSingleMergeFlow envAllOk "/tmp" "dev" "main" "/repo"
        []).2.2).count Step.cleanupCall = 1 ∧
    (createWorktreeConfig envAllOk.now "/tmp" "/repo" "dev" "main").worktreePath ∉
      (executeSingleMergeFlow envAllOk "/tmp" "dev" "main" "/repo" []).2.1 ∧
    ((executeWorkTreeFlow envAllOk stAllOk [] none
        ⟨"/repo", "/tmp/vscode-git-auto-merge/merge-dev-0", "dev", "main"⟩
        []).2.2).count Step.cleanupCall = 1 ∧
    (⟨"/repo", "/tmp/vscode-git-auto-merge/merge-dev-0", "dev", "main"⟩ :
        WorktreeConfig).worktreePath ∉
      (executeWorkTreeFlow envAllOk stAllOk [] none
        ⟨"/repo", "/tmp/vscode-git-auto-merge/merge-dev-0", "dev", "main"⟩ []).2.1 :=
  flow_cleanup_exactly_once_and_worktree_removed envAllOk stAllOk [] none
    "/tmp" "dev" "main" "/repo"
    ⟨"/repo", "/tmp/vscode-git-auto-merge/merge-dev-0", "dev", "main"⟩ [] []
    (by simp) (by simp) rfl

/-- **C3** Within one merge flow, a failure of the `Merging` stage means
no `Pushing` command is ever issued for that target: the flow reports
failure and still performs its single cleanup.  (Since `push` is only
reached after `create`, `switch`, `pull` and `merge` all succeeded, this
holds whatever the other stages did.)  Stated for both
`executeSingleMergeFlow` and `executeWorkTreeFlow`. -/
theorem merge_failure_skips_push
    (env : FlowEnv) (stEnv : StaleEnv) (staleList : List String) (wsOpt : Option String)
    (tmpdir targetBranch sourceBranch workspacePath : String)
    (config : WorktreeConfig) (fs₀ fs₀' : List String)
    (hm : env.mergeOk = false) :
    (executeSingleMergeFlow env tmpdir targetBranch sourceBranch workspacePath
        fs₀).1.success = false ∧
    Step.push ∉ (executeSingleMergeFlow env tmpdir targetBranch sourceBranch workspacePath
        fs₀).2.2 ∧
    ((executeSingleMergeFlow env tmpdir targetBranch sourceBranch workspacePath
        fs₀).2.2).count Step.cleanupCall = 1 ∧
    (executeWorkTreeFlow env stEnv staleList wsOpt config fs₀').1.isFailed = true ∧
    Step.push ∉ (executeWorkTreeFlow env stEnv staleList wsOpt config fs₀').2.2 ∧
    ((executeWorkTreeFlow env stEnv staleList wsOpt config
        fs₀').2.2).count Step.cleanupCall = 1 := by
  obtain ⟨⟨e, he⟩, hnp⟩ := mergeFlowBody_merge_fail env
    (createWorktreeConfig env.now tmpdir workspacePath targetBranch sourceBranch) fs₀ hm
  refine ⟨?_, ?_, executeSingleMergeFlow_cleanup_once env tmpdir targetBranch sourceBranch
    workspacePath fs₀, ?_, ?_, executeWorkTreeFlow_cleanup_once env stEnv staleList wsOpt
    config fs₀'⟩
  · unfold executeSingleMergeFlow
    rcases hb : mergeFlowBody env
        (createWorktreeConfig env.now tmpdir workspacePath targetBranch sourceBranch) fs₀
      with ⟨res, fsb, trb⟩
    rw [hb] at he
    simp only at he
    subst he
    rcases hcl : cleanupWorktree env fsb
        (createWorktreeConfig env.now tmpdir workspacePath targetBranch sourceBranch)
      with ⟨fsc, ctr⟩
    simp [hb, hcl]
  · unfold executeSingleMergeFlow
    rcases hb : mergeFlowBody env
        (createWorktreeConfig env.now tmpdir workspacePath targetBranch sourceBranch) fs₀
      with ⟨res, fsb, trb⟩
    rw [hb] at he hnp
    simp only at he hnp
    subst he
    rcases hcl : cleanupWorktree env fsb
        (createWorktreeConfig env.now tmpdir workspacePath targetBranch sourceBranch)
      with ⟨fsc, ctr⟩
    have hcp : Step.push ∉ ctr := by
      have h := cleanupWorktree_no_push env fsb
        (createWorktreeConfig env.now tmpdir workspacePath targetBranch sourceBranch)
      rw [hcl] at h
      exact h
    simp [hb, hcl]
    exact ⟨hnp, hcp⟩
  · unfold executeWorkTreeFlow
    rcases hpre : checkAndPromptStaleWorktrees stEnv staleList wsOpt fs₀' with ⟨fs₁, tr₀⟩
    obtain ⟨⟨e', he'⟩, -⟩ := mergeFlowBody_merge_fail env config fs₁ hm
    rcases hb : mergeFlowBody env config fs₁ with ⟨res, fsb, trb⟩
    rw [hb] at he'
    simp only at he'
    subst he'
    rcases hcl : cleanupWorktree env fsb config with ⟨fsc, ctr⟩
    simp [hpre, hb, hcl, FlowOutcome.isFailed]
  · unfold executeWorkTreeFlow
    rcases hpre : checkAndPromptStaleWorktrees stEnv staleList wsOpt fs₀' with ⟨fs₁, tr₀⟩
    have hpre0 : Step.push ∉ tr₀ := by
      intro hmem
      have h := checkAndPrompt_trace stEnv staleList wsOpt fs₀' Step.push
        (by rw [hpre]; exact hmem)
      rcases h with ⟨p, h⟩ | ⟨p, h⟩ <;> cases h
    obtain ⟨⟨e', he'⟩, hnp'⟩ := mergeFlowBody_merge_fail env config fs₁ hm
    rcases hb : mergeFlowBody env config fs₁ with ⟨res, fsb, trb⟩
    rw [hb] at he' hnp'
    simp only at he' hnp'
    subst he'
    rcases hcl : cleanupWorktree env fsb config with ⟨fsc, ctr⟩
    have hcp : Step.push ∉ ctr := by
      have h := cleanupWorktree_no_push env fsb config
      rw [hcl] at h
      exact h
    simp [hpre, hb, hcl]
    exact ⟨hpre0, hnp', hcp⟩

/-- Witness for C3: a concrete flow whose merge stage fails issues no
push, reports failure and cleans up once. -/
theorem merge_failure_skips_push_witness :
    (executeSingleMergeFlow envMergeFail "/tmp" "dev" "main" "/repo" []).1.success = false ∧
    Step.push ∉ (executeSingleMergeFlow envMergeFail "/tmp" "dev" "main" "/repo" []).2.2 ∧
    ((executeSingleMergeFlow envMergeFail "/tmp" "dev" "main" "/repo"
        []).2.2).count Step.cleanupCall = 1 ∧
    (executeWorkTreeFlow envMergeFail stAllOk [] none
        ⟨"/repo", "/tmp/vscode-git-auto-merge/merge-dev-0", "dev", "main"⟩
        []).1.isFailed = true ∧
    Step.push ∉ (executeWorkTreeFlow envMergeFail stAllOk [] none
        ⟨"/repo", "/tmp/vscode-git-auto-merge/merge-dev-0", "dev", "main"⟩ []).2.2 ∧
    ((executeWorkTreeFlow envMergeFail stAllOk [] none
        ⟨"/repo", "/tmp/vscode-git-auto-merge/merge-dev-0", "dev", "main"⟩
        []).2.2).count Step.cleanupCall = 1 :=
  merge_failure_skips_push envMergeFail stAllOk [] none "/tmp" "dev" "main" "/repo"
    ⟨"/repo", "/tmp/vscode-git-auto-merge/merge-dev-0", "dev", "main"⟩ [] [] rfl

/-! ### Batch coordinator lemmas -/

theorem mergeLoop_results (envs : Nat → FlowEnv) (tmpdir s w : String) :
    ∀ (ts : List String) (i : Nat) (fs : List String),
      (mergeLoop envs tmpdir s w i fs ts).1 = expectedBatchResults envs tmpdir s w i ts := by
  intro ts
  induction ts with
  | nil => intro i fs; rfl
  | cons t rest ih =>
    intro i fs
    unfold mergeLoop expectedBatchResults
    rcases h₁ : executeSingleMergeFlow (envs i) tmpdir t s w fs with ⟨r, fs₁, tr₁⟩
    simp only
    rw [ih (i + 1) fs₁]
    have hr := executeSingleMergeFlow_res_indep (envs i) tmpdir t s w fs []
    rw [h₁] at hr
    simp only at hr
    rw [hr]

theorem expectedBatchResults_map (envs : Nat → FlowEnv) (tmpdir s w : String) :
    ∀ (ts : List String) (i : Nat),
      (expectedBatchResults envs tmpdir s w i ts).map MultipleMergeResult.targetBranch = ts := by
  intro ts
  induction ts with
  | nil => intro i; rfl
  | cons t rest ih =>
    intro i
    unfold expectedBatchResults
    simp [executeSingleMergeFlow_targetBranch, ih (i + 1)]

/-- **C2** For every ordered sequence of target branches handed to
`executeMultipleMergeCore`, the flow runs once per target, sequentially
and in the given order: the returned result sequence is exactly the
per-target single-flow results (target `i` run under world `envs i` —
independent of any earlier target's failure), its projection to
`targetBranch` is the input sequence itself, and its length is the input
length. -/
theorem batch_runs_every_target_in_order
    (envs : Nat → FlowEnv) (stEnv : StaleEnv) (staleList : List String)
    (tmpdir : String) (targetBranches : List String) (sourceBranch workspacePath : String)
    (fs₀ : List String) :
    (executeMultipleMergeCore envs stEnv staleList tmpdir targetBranches sourceBranch
        workspacePath fs₀).1 =
      expectedBatchResults envs tmpdir sourceBranch workspacePath 0 targetBranches ∧
    ((executeMultipleMergeCore envs stEnv staleList tmpdir targetBranches sourceBranch
        workspacePath fs₀).1).map MultipleMergeResult.targetBranch = targetBranches ∧
    ((executeMultipleMergeCore envs stEnv staleList tmpdir targetBranches sourceBranch
        workspacePath fs₀).1).length = targetBranches.length := by
  have hmain : (executeMultipleMergeCore envs stEnv staleList tmpdir targetBranches sourceBranch
      workspacePath fs₀).1 =
      expectedBatchResults envs tmpdir sourceBranch workspacePath 0 targetBranches := by
    unfold executeMultipleMergeCore
    rcases hpre : checkAndPromptStaleWorktrees stEnv staleList (some workspacePath) fs₀
      with ⟨fs₁, tr₀⟩
    simpa using mergeLoop_results envs tmpdir sourceBranch workspacePath targetBranches 0 fs₁
  refine ⟨hmain, ?_, ?_⟩
  · rw [hmain]
    exact expectedBatchResults_map envs tmpdir sourceBranch workspacePath targetBranches 0
  · rw [hmain]
    have h := expectedBatchResults_map envs tmpdir sourceBranch workspacePath targetBranches 0
    have := congrArg List.length h
    simpa using this

/-- **C4 (counterexample)** The stale cleaner's guard is the substring
test `includes('vscode-git-auto-merge')`, not containment in the fixed
base directory: the path `/home/user/vscode-git-auto-merge` lies outside
the base directory `/tmp/vscode-git-auto-merge` (it is neither the base
directory nor below it), yet the cleaner deregisters and deletes it. -/
theorem stale_cleaner_acts_outside_base_dir :
    jsIncludes "/home/user/vscode-git-auto-merge" "vscode-git-auto-merge" = true ∧
    jsStartsWith "/home/user/vscode-git-auto-merge" (getWorktreesBaseDir "/tmp" ++ "/") = false ∧
    "/home/user/vscode-git-auto-merge" ≠ getWorktreesBaseDir "/tmp" ∧
    (cleanupStaleWorktrees stAllOk (some "/repo")
        ["/home/user/vscode-git-auto-merge"] ["/home/user/vscode-git-auto-merge"]).2.1 = [] ∧
    Step.staleRm "/home/user/vscode-git-auto-merge" ∈
      (cleanupStaleWorktrees stAllOk (some "/repo")
        ["/home/user/vscode-git-auto-merge"] ["/home/user/vscode-git-auto-merge"]).2.2 := by
  decide

/-- **C4 (amended)** The stale cleaner never deregisters or deletes a
candidate path that does not contain the reserved base-directory marker
`vscode-git-auto-merge` as a substring; any such path is skipped rather
than acted on (no deregistration step, no removal step, membership in
the filesystem unchanged).  Paths containing the marker are acted on
even when they lie outside the fixed base directory. -/
theorem stale_cleaner_skips_nonmarker_paths
    (env : StaleEnv) (rp : Option String) (ps fs : List String) (p : String)
    (hmk : jsIncludes p "vscode-git-auto-merge" = false) :
    (p ∈ (cleanupStaleWorktrees env rp fs ps).2.1 ↔ p ∈ fs) ∧
    Step.staleGitRemove p ∉ (cleanupStaleWorktrees env rp fs ps).2.2 ∧
    Step.staleRm p ∉ (cleanupStaleWorktrees env rp fs ps).2.2 :=
  cleanupStaleWorktrees_skips env rp ps fs p hmk

/-- Witness for the amended C4: a path without the marker survives the
cleaner untouched. -/
theorem stale_cleaner_skips_nonmarker_paths_witness :
    ("/home/other" ∈ (cleanupStaleWorktrees stAllOk (some "/repo")
        ["/home/other"] ["/home/other"]).2.1 ↔ "/home/other" ∈ ["/home/other"]) ∧
    Step.staleGitRemove "/home/other" ∉
      (cleanupStaleWorktrees stAllOk (some "/repo") ["/home/other"] ["/home/other"]).2.2 ∧
    Step.staleRm "/home/other" ∉
      (cleanupStaleWorktrees stAllOk (some "/repo") ["/home/other"] ["/home/other"]).2.2 :=
  stale_cleaner_skips_nonmarker_paths stAllOk (some "/repo")
    ["/home/other"] ["/home/other"] "/home/other" (by decide)

/-- **C5 (counterexample)** Two invocations of the allocator within the
same process second are not guaranteed distinct names: two calls in the
same millisecond observe the same `Date.now()` value and produce the
same worktree name (there is no per-call uniqueness counter). -/
theorem worktree_names_collide_same_millisecond :
    ¬ (∀ now₁ now₂ : Nat, now₁ / 1000 = now₂ / 1000 →
        worktreeNameOf now₁ "dev" ≠ worktreeNameOf now₂ "dev") :=
  fun h => h 123456789 123456789 rfl rfl

/-- **C5 (amended)** For two invocations of the allocator for the same
target branch within the same process second that observe distinct
`Date.now()` millisecond values, the generated worktree names are
distinct. -/
theorem worktree_names_distinct_for_distinct_millis
    (now₁ now₂ : Nat) (targetBranch : String)
    (hne : now₁ ≠ now₂) (hsec : now₁ / 1000 = now₂ / 1000) :
    worktreeNameOf now₁ targetBranch ≠ worktreeNameOf now₂ targetBranch := by
  intro h
  apply timestampSuffix_inj_same_second hne hsec
  have hd := congrArg String.data h
  unfold worktreeNameOf at hd
  simp only [String.data_append, List.append_assoc] at hd
  have h₁ := List.append_cancel_left hd
  have h₂ := List.append_cancel_left h₁
  have h₃ := List.append_cancel_left h₂
  exact String.ext h₃

/-- Witness for the amended C5: one millisecond apart within the same
second, the names differ. -/
theorem worktree_names_distinct_for_distinct_millis_witness :
    (1000 : Nat) ≠ 1001 ∧ (1000 : Nat) / 1000 = 1001 / 1000 ∧
    worktreeNameOf 1000 "dev" ≠ worktreeNameOf 1001 "dev" :=
  ⟨by decide, by decide,
    worktree_names_distinct_for_distinct_millis 1000 1001 "dev" (by decide) (by decide)⟩

/-- When every entry is already absent, the cleaner changes nothing —
but still counts every marker-containing entry as a success. -/
theorem cleanupStale_all_absent (env : StaleEnv) (rp : Option String) :
    ∀ (entries fs : List String),
      (∀ p ∈ entries, p ∉ fs) →
      (∀ p ∈ entries, jsIncludes p "vscode-git-auto-merge" = true) →
      (cleanupStaleWorktrees env rp fs entries).1 = (entries.length, 0) ∧
        (cleanupStaleWorktrees env rp fs entries).2.1 = fs := by
  intro entries
  induction entries with
  | nil => intro fs _ _; simp [cleanupStaleWorktrees]
  | cons q rest ih =>
    intro fs habs hmk
    have hstep : cleanupStaleStep env rp fs q (0, 0) =
        ((1, 0), fs, staleRemoveTrace rp q) := by
      unfold cleanupStaleStep
      simp [hmk q (List.mem_cons_self q rest), habs q (List.mem_cons_self q rest)]
    have hrec := ih fs (fun p hp => habs p (List.mem_cons_of_mem q hp))
      (fun p hp => hmk p (List.mem_cons_of_mem q hp))
    unfold cleanupStaleWorktrees
    rw [hstep]
    rcases hr : cleanupStaleWorktrees env rp fs rest with ⟨⟨s, f⟩, fs₂, tr₂⟩
    rw [hr] at hrec
    simp only at hrec
    obtain ⟨hsf, hfs⟩ := hrec
    rw [Prod.mk.injEq] at hsf
    obtain ⟨hs, hf⟩ := hsf
    subst hs hf hfs
    simp [hr, Nat.add_comm]

/-- **C6 (amended)** Cleanup is idempotent in effect but not in its
success report: `cleanupWorktree` on a missing directory is a silent
no-op (no error is possible — the function is total — and nothing beyond
the call itself is recorded), and running `cleanupStaleWorktrees` twice
in succession on the same marker-containing entries errors neither time
and removes nothing further the second time, but the second call reports
`success = entries.length` (each already-absent entry is still counted a
success), not `0`. -/
theorem cleanup_idempotent_effect
    (env : FlowEnv) (fs : List String) (config : WorktreeConfig)
    (stEnv : StaleEnv) (rp : Option String) (fs₀ entries : List String)
    (hp : config.worktreePath ∉ fs)
    (hnd : fs₀.Nodup)
    (hmk : ∀ p ∈ entries, jsIncludes p "vscode-git-auto-merge" = true)
    (hrm : ∀ p, stEnv.rmOk p = true) :
    cleanupWorktree env fs config = (fs, [Step.cleanupCall]) ∧
    (cleanupStaleWorktrees stEnv rp
        ((cleanupStaleWorktrees stEnv rp fs₀ entries).2.1) entries).1 =
      (entries.length, 0) ∧
    (cleanupStaleWorktrees stEnv rp
        ((cleanupStaleWorktrees stEnv rp fs₀ entries).2.1) entries).2.1 =
      (cleanupStaleWorktrees stEnv rp fs₀ entries).2.1 := by
  have habs : ∀ p ∈ entries, p ∉ (cleanupStaleWorktrees stEnv rp fs₀ entries).2.1 :=
    fun p hp' => cleanupStaleWorktrees_removes stEnv rp entries fs₀ hnd p hp'
      (hmk p hp') (hrm p)
  have h2 := cleanupStale_all_absent stEnv rp entries
    ((cleanupStaleWorktrees stEnv rp fs₀ entries).2.1) habs hmk
  exact ⟨cleanupWorktree_not_mem env fs config hp, h2.1, h2.2⟩

/-- Witness for the amended C6 on a concrete entry list. -/
theorem cleanup_idempotent_effect_witness :
    cleanupWorktree envAllOk [] ⟨"/repo", "/w", "t", "s"⟩ = ([], [Step.cleanupCall]) ∧
    (cleanupStaleWorktrees stAllOk (some "/repo")
        ((cleanupStaleWorktrees stAllOk (some "/repo")
            ["/tmp/vscode-git-auto-merge/merge-a-111111"]
            ["/tmp/vscode-git-auto-merge/merge-a-111111"]).2.1)
        ["/tmp/vscode-git-auto-merge/merge-a-111111"]).1 = (1, 0) ∧
    (cleanupStaleWorktrees stAllOk (some "/repo")
        ((cleanupStaleWorktrees stAllOk (some "/repo")
            ["/tmp/vscode-git-auto-merge/merge-a-111111"]
            ["/tmp/vscode-git-auto-merge/merge-a-111111"]).2.1)
        ["/tmp/vscode-git-auto-merge/merge-a-111111"]).2.1 =
      (cleanupStaleWorktrees stAllOk (some "/repo")
          ["/tmp/vscode-git-auto-merge/merge-a-111111"]
          ["/tmp/vscode-git-auto-merge/merge-a-111111"]).2.1 := by
  have h := cleanup_idempotent_effect envAllOk [] ⟨"/repo", "/w", "t", "s"⟩
    stAllOk (some "/repo") ["/tmp/vscode-git-auto-merge/merge-a-111111"]
    ["/tmp/vscode-git-auto-merge/merge-a-111111"]
    (by simp) (by simp) (by decide) (fun p => rfl)
  simpa using h

/-- **C6 (counterexample)** The second of two successive stale-cleanup
calls on the same single entry reports `success = 1`, not `0`
newly-removed entries: the success counter counts processed entries,
not removals. -/
theorem second_stale_cleanup_counts_absent_entries :
    (cleanupStaleWorktrees stAllOk (some "/repo")
        ((cleanupStaleWorktrees stAllOk (some "/repo")
            ["/tmp/vscode-git-auto-merge/merge-b-222222"]
            ["/tmp/vscode-git-auto-merge/merge-b-222222"]).2.1)
        ["/tmp/vscode-git-auto-merge/merge-b-222222"]).1 = (1, 0) ∧
    (cleanupStaleWorktrees stAllOk (some "/repo")
        ((cleanupStaleWorktrees stAllOk (some "/repo")
            ["/tmp/vscode-git-auto-merge/merge-b-222222"]
            ["/tmp/vscode-git-auto-merge/merge-b-222222"]).2.1)
        ["/tmp/vscode-git-auto-merge/merge-b-222222"]).1.1 ≠ 0 := by
  decide

/-! ### Unpushed-commit guard claims -/

/-- **C7** `checkUnpushedCommits`: with no remote-tracking ref, it
reports `hasUnpushed = true` exactly when the local `rev-list --count`
is positive, with `commitCount` the full local count and the commits
list the (≤ 5 line) output of `git log -n 5`; with a remote-tracking
ref, `commitCount` is the full size of the `remote/branch..HEAD` range
while the list is capped at 5; a branch fully in sync yields
`⟨false, 0, []⟩`. -/
theorem check_unpushed_commits_spec (env : GitEnv) :
    (∀ (n : Nat) (out : String), env.remoteRefOk = false →
      env.revListRes = Except.ok n → 0 < n → env.logLocalRes = Except.ok out →
        checkUnpushedCommits env = ⟨true, n, parseLogLines out⟩ ∧
        ((parseLogLines out).length ≤ 5 → (checkUnpushedCommits env).commits.length ≤ 5)) ∧
    (env.remoteRefOk = false → env.revListRes = Except.ok 0 →
        checkUnpushedCommits env = ⟨false, 0, []⟩) ∧
    (∀ out : String, env.remoteRefOk = true → env.logRangeRes = Except.ok out →
        checkUnpushedCommits env =
          ⟨decide (0 < (parseLogLines out).length), (parseLogLines out).length,
            (parseLogLines out).take 5⟩ ∧
        (checkUnpushedCommits env).commits.length ≤ 5) ∧
    (env.remoteRefOk = true → env.logRangeRes = Except.ok "" →
        checkUnpushedCommits env = ⟨false, 0, []⟩) := by
  refine ⟨?_, ?_, ?_, ?_⟩
  · intro n out hro hrev hpos hlog
    have hres : checkUnpushedCommits env = ⟨true, n, parseLogLines out⟩ := by
      unfold checkUnpushedCommits checkUnpushedCommitsAux
      rw [hro, hrev, hlog]
      simp [hpos]
    exact ⟨hres, fun h5 => by rw [hres]; exact h5⟩
  · intro hro hrev
    unfold checkUnpushedCommits checkUnpushedCommitsAux
    rw [hro, hrev]
    simp
  · intro out hro hrng
    have hres : checkUnpushedCommits env =
        ⟨decide (0 < (parseLogLines out).length), (parseLogLines out).length,
          (parseLogLines out).take 5⟩ := by
      unfold checkUnpushedCommits checkUnpushedCommitsAux
      rw [hro, hrng]
      simp
    refine ⟨hres, ?_⟩
    rw [hres]
    simp
  · intro hro hrng
    unfold checkUnpushedCommits checkUnpushedCommitsAux
    rw [hro, hrng]
    have h0 : parseLogLines "" = [] := by decide
    simp [h0]

/-- A repository whose branch has never been pushed, with 3 local
commits. -/
def gitEnvNoRemote : GitEnv := ⟨false, .ok 3, .ok "a 1\nb 2\nc 3", .error "unused"⟩

/-- A repository whose branch is fully in sync with its remote. -/
def gitEnvInSync : GitEnv := ⟨true, .error "unused", .error "unused", .ok ""⟩

/-- Witness for C7: 3 unpushed local commits on a never-pushed branch,
and a fully in-sync branch. -/
theorem check_unpushed_commits_spec_witness :
    checkUnpushedCommits gitEnvNoRemote = ⟨true, 3, parseLogLines "a 1\nb 2\nc 3"⟩ ∧
    parseLogLines "a 1\nb 2\nc 3" = ["a 1", "b 2", "c 3"] ∧
    checkUnpushedCommits gitEnvInSync = ⟨false, 0, []⟩ :=
  ⟨((check_unpushed_commits_spec gitEnvNoRemote).1 3 "a 1\nb 2\nc 3" rfl rfl
      (by decide) rfl).1,
   by decide,
   (check_unpushed_commits_spec gitEnvInSync).2.2.2 rfl rfl⟩

/-- **C9** Whenever an underlying git query inside `checkUnpushedCommits`
fails — other than the remote-ref existence probe, whose failure merely
selects the never-pushed branch of the algorithm — the outermost catch
swallows the error and returns the empty report `⟨false, 0, []⟩`, letting
the merge flow proceed. -/
theorem check_unpushed_commits_swallows_errors (env : GitEnv) :
    (∀ e : String, env.remoteRefOk = false → env.revListRes = Except.error e →
        checkUnpushedCommits env = ⟨false, 0, []⟩) ∧
    (∀ (n : Nat) (e : String), env.remoteRefOk = false → env.revListRes = Except.ok n →
        0 < n → env.logLocalRes = Except.error e →
        checkUnpushedCommits env = ⟨false, 0, []⟩) ∧
    (∀ e : String, env.remoteRefOk = true → env.logRangeRes = Except.error e →
        checkUnpushedCommits env = ⟨false, 0, []⟩) := by
  refine ⟨?_, ?_, ?_⟩
  · intro e hro hrev
    unfold checkUnpushedCommits checkUnpushedCommitsAux
    rw [hro, hrev]
    simp
  · intro n e hro hrev hpos hlog
    unfold checkUnpushedCommits checkUnpushedCommitsAux
    rw [hro, hrev, hlog]
    simp [hpos]
  · intro e hro hrng
    unfold checkUnpushedCommits checkUnpushedCommitsAux
    rw [hro, hrng]
    simp

/-- A repository where `git rev-list` fails outright. -/
def gitEnvRevListFail : GitEnv := ⟨false, .error "boom", .error "x", .error "y"⟩

/-- A repository where the range-log command fails. -/
def gitEnvRangeFail : GitEnv := ⟨true, .ok 0, .ok "", .error "boom"⟩

/-- Witness for C9: concrete failing queries yield the empty report. -/
theorem check_unpushed_commits_swallows_errors_witness :
    checkUnpushedCommits gitEnvRevListFail = ⟨false, 0, []⟩ ∧
    checkUnpushedCommits gitEnvRangeFail = ⟨false, 0, []⟩ :=
  ⟨(check_unpushed_commits_swallows_errors gitEnvRevListFail).1 "boom" rfl rfl,
   (check_unpushed_commits_swallows_errors gitEnvRangeFail).2.2 "boom" rfl rfl⟩

/-- **C8** The push wrapper classifies a failed push by substring
matching on the underlying error text — `Permission denied` to credential
guidance, `Could not resolve hostname` to connectivity guidance,
`rejected` and `non-fast-forward` to pull-remote-changes-first guidance —
falling back to a generic message; the raised error is always one of
these classified messages. -/
theorem push_error_classified (e : String) :
    (jsIncludes e "Permission denied" = true →
      classifyPushError e = "推送失败: 权限被拒绝，请检查 SSH 密钥或访问令牌") ∧
    (jsIncludes e "Permission denied" = false →
      jsIncludes e "Could not resolve hostname" = true →
      classifyPushError e = "推送失败: 无法连接到远程仓库，请检查网络连接") ∧
    (jsIncludes e "Permission denied" = false →
      jsIncludes e "Could not resolve hostname" = false →
      jsIncludes e "rejected" = true →
      classifyPushError e = "推送失败: 推送被拒绝，可能需要先拉取远程更新") ∧
    (jsIncludes e "Permission denied" = false →
      jsIncludes e "Could not resolve hostname" = false →
      jsIncludes e "rejected" = false →
      jsIncludes e "non-fast-forward" = true →
      classifyPushError e = "推送失败: 非快进更新，请先拉取并合并远程更改") ∧
    (jsIncludes e "Permission denied" = false →
      jsIncludes e "Could not resolve hostname" = false →
      jsIncludes e "rejected" = false →
      jsIncludes e "non-fast-forward" = false →
      classifyPushError e = "推送分支失败: " ++ e) ∧
    (classifyPushError e = "推送失败: 权限被拒绝，请检查 SSH 密钥或访问令牌" ∨
      classifyPushError e = "推送失败: 无法连接到远程仓库，请检查网络连接" ∨
      classifyPushError e = "推送失败: 推送被拒绝，可能需要先拉取远程更新" ∨
      classifyPushError e = "推送失败: 非快进更新，请先拉取并合并远程更改" ∨
      classifyPushError e = "推送分支失败: " ++ e) ∧
    pushCurrentBranch (Except.error e) = Except.error (classifyPushError e) := by
  refine ⟨?_, ?_, ?_, ?_, ?_, ?_, rfl⟩
  · intro h₁
    simp [classifyPushError, h₁]
  · intro h₁ h₂
    simp [classifyPushError, h₁, h₂]
  · intro h₁ h₂ h₃
    simp [classifyPushError, h₁, h₂, h₃]
  · intro h₁ h₂ h₃ h₄
    simp [classifyPushError, h₁, h₂, h₃, h₄]
  · intro h₁ h₂ h₃ h₄
    simp [classifyPushError, h₁, h₂, h₃, h₄]
  · unfold classifyPushError
    split_ifs <;> simp

/-- Witness for C8: a permission-denied error text maps to the
credential-guidance message. -/
theorem push_error_classified_witness :
    classifyPushError "remote: Permission denied (publickey)." =
      "推送失败: 权限被拒绝，请检查 SSH 密钥或访问令牌" :=
  (push_error_classified "remote: Permission denied (publickey).").1 (by decide)

/-! ### Worktree-name shape and stale-scan reachability (C10) -/

theorem sanitizeBranchName_no_slash (s : String) : '/' ∉ (sanitizeBranchName s).data := by
  unfold sanitizeBranchName
  intro h
  simp only at h
  rcases List.mem_map.mp h with ⟨c, -, hf⟩
  by_cases hca : c.isAlphanum
  · rw [if_pos hca] at hf
    subst hf
    exact absurd hca (by decide)
  · rw [if_neg hca] at hf
    cases hf

theorem timestampSuffix_no_slash (now : Nat) :
    '/' ∉ (jsSliceLast6 (jsNumToString now)).data := by
  unfold jsSliceLast6 jsNumToString
  intro h
  simp only at h
  have h' : '/' ∈ (Nat.repr now).data := List.mem_of_mem_drop h
  rw [repr_data_eq_natDigitsBE] at h'
  have := natDigitsBE_all_digits now '/' h'
  exact absurd this (by decide)

theorem worktreeName_no_slash (now : Nat) (t : String) :
    '/' ∉ (worktreeNameOf now t).data := by
  unfold worktreeNameOf
  intro h
  simp only [String.data_append, List.mem_append] at h
  rcases h with ((h | h) | h) | h
  · exact absurd h (by decide)
  · exact sanitizeBranchName_no_slash t h
  · exact absurd h (by decide)
  · exact timestampSuffix_no_slash now h

theorem worktreeName_startsWith_merge (now : Nat) (t : String) :
    jsStartsWith (worktreeNameOf now t) "merge-" = true := by
  unfold jsStartsWith worktreeNameOf
  simp only [String.data_append, List.append_assoc]
  exact leadsWith_append _ _

theorem worktreePath_includes_marker (now : Nat) (tmpdir repoPath t s : String) :
    jsIncludes (createWorktreeConfig now tmpdir repoPath t s).worktreePath
      "vscode-git-auto-merge" = true := by
  have h := hasSub_append ((tmpdir.data) ++ "/".data) "vscode-git-auto-merge".data
    ("/".data ++ ("merge-" ++ sanitizeBranchName t ++ "-" ++
      jsSliceLast6 (jsNumToString now)).data)
  simp only [jsIncludes, createWorktreeConfig, getWorktreesBaseDir, pathJoin,
    String.data_append, List.append_assoc]
  simpa [String.data_append, List.append_assoc] using h

/-- **C10** The allocated worktree path is an immediate child of the
fixed base directory (its final component contains no `/` and begins
with the reserved `merge-` prefix); a directory entry bearing that name
under the base directory is always returned by `checkStaleWorktrees`,
the path always passes the marker safety filter of
`cleanupStaleWorktrees`, and feeding it to the cleaner (with its
`rmSync` succeeding) removes it — so every allocated worktree is
reachable by the stale-cleanup path. -/
theorem allocated_worktree_reachable_by_stale_cleanup
    (now : Nat) (tmpdir repoPath targetBranch sourceBranch : String)
    (entries : List DirEnt) (stEnv : StaleEnv) (rp : Option String) (fs : List String)
    (hent : (⟨worktreeNameOf now targetBranch, true⟩ : DirEnt) ∈ entries)
    (hnd : fs.Nodup)
    (hrm : stEnv.rmOk
      ((createWorktreeConfig now tmpdir repoPath targetBranch sourceBranch).worktreePath) = true) :
    (createWorktreeConfig now tmpdir repoPath targetBranch sourceBranch).worktreePath =
      pathJoin (getWorktreesBaseDir tmpdir) (worktreeNameOf now targetBranch) ∧
    '/' ∉ (worktreeNameOf now targetBranch).data ∧
    jsStartsWith (worktreeNameOf now targetBranch) "merge-" = true ∧
    (createWorktreeConfig now tmpdir repoPath targetBranch sourceBranch).worktreePath ∈
      checkStaleWorktrees tmpdir true true entries ∧
    jsIncludes (createWorktreeConfig now tmpdir repoPath targetBranch sourceBranch).worktreePath
      "vscode-git-auto-merge" = true ∧
    (createWorktreeConfig now tmpdir repoPath targetBranch sourceBranch).worktreePath ∉
      (cleanupStaleWorktrees stEnv rp fs
        [(createWorktreeConfig now tmpdir repoPath targetBranch sourceBranch).worktreePath]).2.1 := by
  refine ⟨rfl, worktreeName_no_slash now targetBranch,
    worktreeName_startsWith_merge now targetBranch, ?_,
    worktreePath_includes_marker now tmpdir repoPath targetBranch sourceBranch, ?_⟩
  · unfold checkStaleWorktrees
    simp only [Bool.not_true, if_false]
    refine List.mem_map.mpr ⟨⟨worktreeNameOf now targetBranch, true⟩, ?_, rfl⟩
    refine List.mem_filter.mpr ⟨hent, ?_⟩
    simp [worktreeName_startsWith_merge now targetBranch]
  · exact cleanupStaleWorktrees_removes stEnv rp
      [(createWorktreeConfig now tmpdir repoPath targetBranch sourceBranch).worktreePath]
      fs hnd _ (List.mem_singleton.mpr rfl)
      (worktreePath_includes_marker now tmpdir repoPath targetBranch sourceBranch) hrm

/-- Witness for C10 on a concrete allocation. -/
theorem allocated_worktree_reachable_by_stale_cleanup_witness :
    (createWorktreeConfig 111222333 "/tmp" "/repo" "dev" "main").worktreePath =
      pathJoin (getWorktreesBaseDir "/tmp") (worktreeNameOf 111222333 "dev") ∧
    '/' ∉ (worktreeNameOf 111222333 "dev").data ∧
    jsStartsWith (worktreeNameOf 111222333 "dev") "merge-" = true ∧
    (createWorktreeConfig 111222333 "/tmp" "/repo" "dev" "main").worktreePath ∈
      checkStaleWorktrees "/tmp" true true [⟨worktreeNameOf 111222333 "dev", true⟩] ∧
    jsIncludes (createWorktreeConfig 111222333 "/tmp" "/repo" "dev" "main").worktreePath
      "vscode-git-auto-merge" = true ∧
    (createWorktreeConfig 111222333 "/tmp" "/repo" "dev" "main").worktreePath ∉
      (cleanupStaleWorktrees stAllOk (some "/repo")
        [(createWorktreeConfig 111222333 "/tmp" "/repo" "dev" "main").worktreePath]
        [(createWorktreeConfig 111222333 "/tmp" "/repo" "dev" "main").worktreePath]).2.1 :=
  allocated_worktree_reachable_by_stale_cleanup 111222333 "/tmp" "/repo" "dev" "main"
    [⟨worktreeNameOf 111222333 "dev", true⟩] stAllOk (some "/repo")
    [(createWorktreeConfig 111222333 "/tmp" "/repo" "dev" "main").worktreePath]
    (List.mem_singleton.mpr rfl) (by simp) rfl

end GitQuickMerge
